import Mathlib

/-
Verification of the AveroPay wallet send pipeline
(`src/src/qt/walletmodel.cpp`, `WalletModel::validateAddress` and
`WalletModel::sendCoins`) against its natural-language specification.

The C++ code is shallowly embedded: external collaborators (the wallet's
coin store, the stealth-key cryptography, transaction construction and
commit, the fee-confirmation dialog, the address book) are oracles packed
into an `Env` record, and the observable interactions of one `sendCoins`
invocation (coin access, lock acquisition, fee-sufficiency comparisons,
transaction construction, commit, address-book writes) are recorded in an
event trace.  Amounts are `Int` (C++ `int64_t`; no claim here depends on
overflow behaviour), byte strings are `List Nat`.
-/

namespace AveroPay

/-- Status codes of `WalletModel::SendCoinsReturn` (walletmodel.h enum
`StatusCode`, as used in walletmodel.cpp). -/
inductive SendStatus where
  | OK
  | InvalidAmount
  | InvalidAddress
  | AmountExceedsBalance
  | AmountWithFeeExceedsBalance
  | DuplicateAddress
  | TransactionCreationFailed
  | TransactionCommitFailed
  | NarrationTooLong
  | Aborted
  deriving DecidableEq, Repr

/-- Result record of `WalletModel::sendCoins`: status, the fee carried by
`AmountWithFeeExceedsBalance` returns (0 otherwise), and the committed
transaction's hex id (empty unless the send succeeded). -/
structure SendCoinsReturn where
  status : SendStatus
  fee : Int
  hex : String
  deriving DecidableEq, Repr

/-- One `SendCoinsRecipient`: destination address string, label, amount,
address-type tag (`typeInd`) and the narration as raw bytes. -/
structure Recipient where
  address : String
  label : String
  amount : Int
  typeInd : Nat
  narration : List Nat
  deriving DecidableEq, Repr

/-- Tag value `AddressTableModel::AT_Stealth`.  The numeric value is
immaterial: walletmodel.cpp only ever compares `rcp.typeInd` against it for
equality. -/
def AT_Stealth : Nat := 1

/-- A recipient type tag that is not `AT_Stealth` (a standard recipient). -/
def AT_Normal : Nat := 0

/-- A transaction output destination: either a standard address string fed
through `CBitcoinAddress(sAddr).Get()`-style parsing, or the key id of a
derived one-time stealth public key. -/
inductive Dest where
  | fromAddrString (s : String)
  | fromKeyId (pk : List Nat)
  deriving DecidableEq, Repr

/-- One element of a raw script: an `OP_RETURN` opcode or a data push. -/
inductive ScriptElem where
  | opReturn
  | push (bytes : List Nat)
  deriving DecidableEq, Repr

/-- A script: either `scriptPubKey.SetDestination(...)` applied to a
destination, or a raw data-carrier script built with `<<`. -/
inductive Script where
  | payTo (d : Dest)
  | raw (elems : List ScriptElem)
  deriving DecidableEq, Repr

/-- An output as pushed onto `vecSend`: script and value. -/
abbrev Output := Script × Int

/-- Decoded stealth address (`CStealthAddress` after `SetEncoded`). -/
structure StealthDecoded where
  scanPubkey : List Nat
  spendPubkey : List Nat
  deriving DecidableEq, Repr

/-- Observable interactions of one `sendCoins` run, in program order:
`availableCoins` is the `wallet->AvailableCoins` read, `feeCheck f` records
that the comparison `total + f > nBalance` was evaluated with fee `f`,
`lockAcquired` is `LOCK2(cs_main, wallet->cs_wallet)`, `createTx` is the
`wallet->CreateTransaction` call, `askFee` the `ThreadSafeAskFee` dialog,
`commitTx` the `wallet->CommitTransaction` call, and the last two are the
address-book writes after commit. -/
inductive Event where
  | availableCoins
  | feeCheck (fee : Int)
  | lockAcquired
  | createTx
  | askFee (fee : Int)
  | commitTx (wtxNarr : List (Nat × List Nat))
  | setAddressBook (addr label : String)
  | updateStealthAddress (addr label : String)
  deriving DecidableEq, Repr

/-- True exactly on `feeCheck` events. -/
def Event.isFeeCheck : Event → Bool
  | .feeCheck _ => true
  | _ => false

/-- True exactly on `commitTx` events.  The `commitTx` payload is the
narration metadata map (`wtx.mapValue` narration entries) carried by the
transaction handed to `CommitTransaction`. -/
def Event.isCommit : Event → Bool
  | .commitTx _ => true
  | _ => false

/-- True on the events that mutate wallet state (the commit and the
address-book writes).  Coin reads, fee comparisons and lock acquisition are
not mutations. -/
def Event.isMutation : Event → Bool
  | .commitTx _ => true
  | .setAddressBook _ _ => true
  | .updateStealthAddress _ _ => true
  | _ => false

/-- The external collaborators of `WalletModel::sendCoins`, as deterministic
oracles: `IsStealthAddress`, `CBitcoinAddress::IsValid`,
`CStealthAddress::SetEncoded` (decoded address on success),
`GenerateRandomSecret` (indexed by the recipient's position, since each call
draws fresh randomness), `StealthSecret` (shared secret and one-time pubkey),
`CPubKey::IsValid`, `SecretToPublicKey`, `SecMsgCrypter::SetKey/Encrypt`
(key, IV, plaintext to ciphertext), the wallet's spendable coin values, the
ambient `nTransactionFee`, `CWallet::CreateTransaction` (created?, required
fee, change position), `ThreadSafeAskFee`, `CWallet::CommitTransaction`'s
outcome, the committed transaction's hash, and the address book
(`mapAddressBook` label lookup keyed by the address string). -/
structure Env where
  isStealthAddress : String → Bool
  isValidBase58 : String → Bool
  setEncoded : String → Option StealthDecoded
  genSecret : Nat → Option (List Nat)
  stealthSecret : List Nat → StealthDecoded → Option (List Nat × List Nat)
  pubkeyValid : List Nat → Bool
  secretToPublic : List Nat → Option (List Nat)
  encryptNarr : List Nat → List Nat → List Nat → Option (List Nat)
  availableCoins : List Int
  nTransactionFee : Int
  createTransaction : List Output → Bool × Int × Int
  askFeeOk : Int → Bool
  commitOk : Bool
  txHash : String
  addressBook : String → Option String

/-- `WalletModel::validateAddress` (walletmodel.cpp lines 198-210): if the
string is longer than 75 characters and `IsStealthAddress` accepts it,
return true; in every other case fall through to standard
`CBitcoinAddress` parsing. -/
def validateAddress (env : Env) (addr : String) : Bool :=
  if 75 < addr.length then
    if env.isStealthAddress addr then true
    else env.isValidBase58 addr
  else env.isValidBase58 addr

/-- The input-validation loop of `sendCoins` (lines 224-237): per recipient,
reject an invalid address, insert the address into the `setAddress` set,
reject a non-positive amount, and accumulate the total. -/
def precheck (env : Env) : List Recipient → Int → List String →
    Except SendStatus (Int × List String)
  | [], total, setAddr => .ok (total, setAddr)
  | rcp :: rest, total, setAddr =>
    if validateAddress env rcp.address = false then .error .InvalidAddress
    else
      let setAddr' := if rcp.address ∈ setAddr then setAddr else rcp.address :: setAddr
      if rcp.amount ≤ 0 then .error .InvalidAmount
      else precheck env rest (total + rcp.amount) setAddr'

/-- The 2-byte narration descriptor tag pushed for non-stealth narrations:
`vNDesc[0] = 'n'; vNDesc[1] = 'p'` (lines 386-390). -/
def narrationDescTag : List Nat := [110, 112]

/-- The standard (non-stealth) arm of the per-recipient loop body of
`sendCoins` (lines 368-395): push the payment output, then, for a non-empty
narration, reject more than 24 raw bytes, else push one zero-value output
whose script is `OP_RETURN << vNDesc << OP_RETURN << vNarr`. -/
def processStandard (rcp : Recipient) (vecSend : List Output)
    (narrMap : List (Nat × List Nat)) :
    Except SendStatus (List Output × List (Nat × List Nat)) :=
  let vec1 := vecSend ++ [(.payTo (.fromAddrString rcp.address), rcp.amount)]
  if 0 < rcp.narration.length then
    if 24 < rcp.narration.length then .error .NarrationTooLong
    else
      .ok (vec1 ++
        [(.raw [.opReturn, .push narrationDescTag, .opReturn, .push rcp.narration], 0)],
        narrMap)
  else .ok (vec1, narrMap)

/-- The per-recipient loop body of `sendCoins` (lines 270-396).  A recipient
tagged `AT_Stealth` whose address decodes runs the stealth arm: random
ephemeral secret, `StealthSecret` key agreement, derived-pubkey validity,
ephemeral pubkey derivation (each failure returns `Aborted`); then the
payment output to the one-time key, the data-carrier script
`OP_RETURN << ephem_pubkey`; a non-empty narration is length-checked
(more than 24 raw bytes returns `NarrationTooLong`), encrypted (failure
returns `Aborted`), its ciphertext bounded by 48 bytes (else `Aborted`),
appended to the data-carrier script if non-empty, and its payment-output
position recorded in `mapStealthNarr`.  A stealth-tagged recipient whose
address fails `SetEncoded`, and every non-stealth recipient, drops through
to the standard arm.  `i` is the recipient's position, used to index the
fresh-randomness oracle. -/
def processOne (env : Env) (i : Nat) (rcp : Recipient) (vecSend : List Output)
    (narrMap : List (Nat × List Nat)) :
    Except SendStatus (List Output × List (Nat × List Nat)) :=
  if rcp.typeInd = AT_Stealth then
    match env.setEncoded rcp.address with
    | some sxAddr =>
      match env.genSecret i with
      | none => .error .Aborted
      | some ephemSecret =>
        match env.stealthSecret ephemSecret sxAddr with
        | none => .error .Aborted
        | some (secretShared, pkSendTo) =>
          if env.pubkeyValid pkSendTo = false then .error .Aborted
          else
            match env.secretToPublic ephemSecret with
            | none => .error .Aborted
            | some ephemPubkey =>
              let vec1 := vecSend ++ [(.payTo (.fromKeyId pkSendTo), rcp.amount)]
              let scriptP : List ScriptElem := [.opReturn, .push ephemPubkey]
              if 0 < rcp.narration.length then
                if 24 < rcp.narration.length then .error .NarrationTooLong
                else
                  match env.encryptNarr secretShared ephemPubkey rcp.narration with
                  | none => .error .Aborted
                  | some vchNarr =>
                    if 48 < vchNarr.length then .error .Aborted
                    else
                      let scriptP2 :=
                        if 0 < vchNarr.length then scriptP ++ [.opReturn, .push vchNarr]
                        else scriptP
                      let pos := vec1.length - 1
                      .ok (vec1 ++ [(.raw scriptP2, 0)],
                           narrMap ++ [(pos, rcp.narration)])
              else .ok (vec1 ++ [(.raw scriptP, 0)], narrMap)
    | none => processStandard rcp vecSend narrMap
  else processStandard rcp vecSend narrMap

/-- The full per-recipient loop: fold `processOne` over the recipients,
threading `vecSend` and `mapStealthNarr` and the recipient index. -/
def processRecipients (env : Env) : List Recipient → Nat → List Output →
    List (Nat × List Nat) → Except SendStatus (List Output × List (Nat × List Nat))
  | [], _, vec, narr => .ok (vec, narr)
  | rcp :: rest, i, vec, narr =>
    match processOne env i rcp vec narr with
    | .error s => .error s
    | .ok (vec', narr') => processRecipients env rest (i + 1) vec' narr'

/-- The narration-metadata reconciliation loop of `sendCoins`
(lines 405-419): each collected entry keyed by pre-change-insertion position
`p` is attached under position `p + 1` when `nChangePos > -1` and
`p ≥ nChangePos`, and under `p` otherwise.  (The `snprintf` that renders the
key as the string `n_<pos>` cannot fail for these values; the key is
modelled by the position itself.) -/
def attachNarrations (nChangePos : Int) : List (Nat × List Nat) → List (Nat × List Nat)
  | [] => []
  | entry :: rest =>
    let pos : Nat :=
      if nChangePos > -1 ∧ nChangePos ≤ (entry.1 : Int) then entry.1 + 1 else entry.1
    (pos, entry.2) :: attachNarrations nChangePos rest

/-- The post-commit address-book loop of `sendCoins` (lines 444-466): a
stealth-tagged recipient gets `UpdateStealthAddress`; otherwise
`SetAddressBookName` runs exactly when the address is new to
`mapAddressBook` or carries a different label. -/
def addressBookEvents (env : Env) : List Recipient → List Event
  | [] => []
  | rcp :: rest =>
    (if rcp.typeInd = AT_Stealth then [.updateStealthAddress rcp.address rcp.label]
     else if env.addressBook rcp.address = some rcp.label then []
     else [.setAddressBook rcp.address rcp.label]) ++ addressBookEvents env rest

/-- `WalletModel::sendCoins` (lines 212-469), returning the result record
and the trace of observable interactions.  Empty recipient list: `OK` at
once.  Then the validation loop, the duplicate-address check
(`recipients.size() > setAddress.size()`), the `AvailableCoins` balance sum,
the `total > nBalance` check, the optimistic fee pre-check with the assumed
`nTransactionFee`, the lock acquisition, the per-recipient loop,
`CreateTransaction`, the narration reconciliation, the post-construction
fee re-check (only on the `!fCreated` branch), the fee-confirmation dialog,
the commit, and the address-book loop. -/
def sendCoins (env : Env) (recipients : List Recipient) : SendCoinsReturn × List Event :=
  if recipients.isEmpty then (⟨.OK, 0, ""⟩, [])
  else
    match precheck env recipients 0 [] with
    | .error s => (⟨s, 0, ""⟩, [])
    | .ok (total, setAddress) =>
      if setAddress.length < recipients.length then (⟨.DuplicateAddress, 0, ""⟩, [])
      else
        let nBalance := env.availableCoins.sum
        if nBalance < total then (⟨.AmountExceedsBalance, 0, ""⟩, [.availableCoins])
        else if nBalance < total + env.nTransactionFee then
          (⟨.AmountWithFeeExceedsBalance, env.nTransactionFee, ""⟩,
            [.availableCoins, .feeCheck env.nTransactionFee])
        else
          let tr0 : List Event :=
            [.availableCoins, .feeCheck env.nTransactionFee, .lockAcquired]
          match processRecipients env recipients 0 [] [] with
          | .error s => (⟨s, 0, ""⟩, tr0)
          | .ok (vecSend, narrMap) =>
            let res := env.createTransaction vecSend
            let fCreated := res.1
            let nFeeRequired := res.2.1
            let nChangePos := res.2.2
            let wtxNarr := attachNarrations nChangePos narrMap
            let tr1 := tr0 ++ [.createTx]
            if fCreated = false then
              if nBalance < total + nFeeRequired then
                (⟨.AmountWithFeeExceedsBalance, nFeeRequired, ""⟩,
                  tr1 ++ [.feeCheck nFeeRequired])
              else (⟨.TransactionCreationFailed, 0, ""⟩, tr1)
            else if env.askFeeOk nFeeRequired = false then
              (⟨.Aborted, 0, ""⟩, tr1 ++ [.askFee nFeeRequired])
            else if env.commitOk = false then
              (⟨.TransactionCommitFailed, 0, ""⟩,
                tr1 ++ [.askFee nFeeRequired, .commitTx wtxNarr])
            else
              (⟨.OK, 0, env.txHash⟩,
                tr1 ++ [.askFee nFeeRequired, .commitTx wtxNarr] ++
                  addressBookEvents env recipients)

/-! ## Claim-side definitions (refinement comparisons) -/

/-- Claim C8's reading of `validateAddress`, following the spec's words: a
string longer than 75 characters is parsed as a stealth address, any other
string is parsed as a standard address (an exclusive dispatch on length,
with no fallback). -/
def validateAddressSpec (env : Env) (addr : String) : Bool :=
  if 75 < addr.length then env.isStealthAddress addr else env.isValidBase58 addr

/-! ## Error classification lemmas -/

/-- The standard arm of the loop body can only fail with
`NarrationTooLong`. -/
theorem processStandard_error (rcp : Recipient) (vec : List Output)
    (narr : List (Nat × List Nat)) (s : SendStatus)
    (h : processStandard rcp vec narr = .error s) : s = .NarrationTooLong := by
  unfold processStandard at h
  split at h
  · split at h
    · injection h with h'
      exact h'.symm
    · simp at h
  · simp at h

/-- The loop body can only fail with `Aborted` or `NarrationTooLong`. -/
theorem processOne_error (env : Env) (i : Nat) (rcp : Recipient)
    (vec : List Output) (narr : List (Nat × List Nat)) (s : SendStatus)
    (h : processOne env i rcp vec narr = .error s) :
    s = .Aborted ∨ s = .NarrationTooLong := by
  unfold processOne at h
  repeat' split at h
  all_goals
    first
    | exact Or.inr (processStandard_error _ _ _ _ h)
    | simp_all

/-- The recipient loop can only fail with `Aborted` or `NarrationTooLong`. -/
theorem processRecipients_error (env : Env) (l : List Recipient) :
    ∀ (i : Nat) (vec : List Output) (narr : List (Nat × List Nat)) (s : SendStatus),
    processRecipients env l i vec narr = .error s →
    s = .Aborted ∨ s = .NarrationTooLong := by
  induction l with
  | nil => intro i vec narr s h; simp [processRecipients] at h
  | cons rcp rest ih =>
    intro i vec narr s h
    unfold processRecipients at h
    split at h
    · next heq =>
      injection h with h'
      subst h'
      exact processOne_error _ _ _ _ _ _ heq
    · exact ih _ _ _ _ h

/-- The validation loop can only fail with `InvalidAddress` or
`InvalidAmount`. -/
theorem precheck_error (env : Env) (l : List Recipient) :
    ∀ (t : Int) (sa : List String) (s : SendStatus),
    precheck env l t sa = .error s →
    s = .InvalidAddress ∨ s = .InvalidAmount := by
  induction l with
  | nil => intro t sa s h; simp [precheck] at h
  | cons rcp rest ih =>
    intro t sa s h
    unfold precheck at h
    split at h
    · injection h with h'
      exact Or.inl h'.symm
    · simp only [] at h
      split at h
      · injection h with h'
        exact Or.inr h'.symm
      · exact ih _ _ _ h

/-- The address-book loop emits no fee-check events. -/
theorem addressBookEvents_filter_feeCheck (env : Env) (l : List Recipient) :
    (addressBookEvents env l).filter Event.isFeeCheck = [] := by
  induction l with
  | nil => rfl
  | cons rcp rest ih =>
    unfold addressBookEvents
    rw [List.filter_append, ih, List.append_nil]
    split
    · rfl
    · split <;> rfl

/-! ## Concrete environments for witnesses and counterexamples -/

/-- A benign environment: every address is valid (stealth and standard),
all stealth-key steps succeed deterministically, narration encryption is
the identity, the wallet holds a single 100-value coin, the assumed fee is
1, the transaction builder succeeds with fee 2 and no change output, the
fee dialog approves, and the commit succeeds. -/
def env0 : Env where
  isStealthAddress := fun _ => true
  isValidBase58 := fun _ => true
  setEncoded := fun _ => some ⟨[1], [2]⟩
  genSecret := fun _ => some [3]
  stealthSecret := fun _ _ => some ([4], [5])
  pubkeyValid := fun _ => true
  secretToPublic := fun _ => some [6]
  encryptNarr := fun _ _ n => some n
  availableCoins := [100]
  nTransactionFee := 1
  createTransaction := fun _ => (true, 2, -1)
  askFeeOk := fun _ => true
  commitOk := true
  txHash := "ab"
  addressBook := fun _ => none

/-- An environment in which no string is a stealth address but every string
is a valid standard address; all other collaborators are inert. -/
def env8 : Env where
  isStealthAddress := fun _ => false
  isValidBase58 := fun _ => true
  setEncoded := fun _ => none
  genSecret := fun _ => none
  stealthSecret := fun _ _ => none
  pubkeyValid := fun _ => false
  secretToPublic := fun _ => none
  encryptNarr := fun _ _ _ => none
  availableCoins := []
  nTransactionFee := 0
  createTransaction := fun _ => (false, 0, -1)
  askFeeOk := fun _ => false
  commitOk := false
  txHash := ""
  addressBook := fun _ => none

/-- A 76-character address string. -/
def addr8 : String := String.mk (List.replicate 76 'a')

/-- A standard recipient with a valid address, positive amount and a
25-byte narration. -/
def rcpLongNarr : Recipient := ⟨"A", "", 5, AT_Normal, List.replicate 25 97⟩

/-- A standard recipient with a valid address and a non-positive amount. -/
def rcpNonPos : Recipient := ⟨"A", "", 0, AT_Normal, []⟩

/-! ## C1 -/

/-- C1 counterexample: with a single otherwise-valid standard recipient
whose narration has 25 raw bytes, `sendCoins` produces the input error
`NarrationTooLong` only after the chain/wallet resource lock has been
acquired: the run's trace contains the lock-acquisition event. -/
theorem c1_counterexample :
    (sendCoins env0 [rcpLongNarr]).1.status = SendStatus.NarrationTooLong ∧
    Event.lockAcquired ∈ (sendCoins env0 [rcpLongNarr]).2 := by
  refine ⟨by decide, by decide⟩

/-- C1 (amended): the input errors `InvalidAddress`, `InvalidAmount` and
`DuplicateAddress` are produced before any coin access or lock acquisition
and with zero side effects (the trace is empty); `NarrationTooLong`,
however, is produced inside the critical section — after the coin read, the
optimistic fee check and the lock acquisition — though still before any
transaction construction or wallet mutation (its trace is exactly those
three events). -/
theorem c1_input_errors (env : Env) (recipients : List Recipient) :
    (((sendCoins env recipients).1.status = .InvalidAddress ∨
      (sendCoins env recipients).1.status = .InvalidAmount ∨
      (sendCoins env recipients).1.status = .DuplicateAddress) →
        (sendCoins env recipients).2 = []) ∧
    ((sendCoins env recipients).1.status = .NarrationTooLong →
      (sendCoins env recipients).2 =
        [.availableCoins, .feeCheck env.nTransactionFee, .lockAcquired]) := by
  rcases hr : sendCoins env recipients with ⟨ret, tr⟩
  unfold sendCoins at hr
  simp only [] at hr
  repeat' split at hr
  all_goals (injection hr with h1 h2; subst h1; subst h2)
  all_goals refine ⟨fun h => ?_, fun h => ?_⟩
  all_goals
    first
    | rfl
    | (simp at h; done)
    | (simp at h; subst h;
       have hc := precheck_error env recipients 0 [] _ (by assumption);
       simp at hc)
    | (simp at h; rcases h with h | h | h <;> subst h <;>
       (have hc := processRecipients_error env recipients 0 [] [] _ (by assumption);
        simp at hc))

/-- C1 witness: a recipient with amount 0 yields `InvalidAmount` with an
empty trace. -/
theorem c1_input_errors_witness :
    (sendCoins env0 [rcpNonPos]).1.status = SendStatus.InvalidAmount ∧
    (sendCoins env0 [rcpNonPos]).2 = [] :=
  ⟨by decide, (c1_input_errors env0 [rcpNonPos]).1 (Or.inr (Or.inl (by decide)))⟩

/-! ## C2 -/

/-- A standard recipient with a valid address, amount 7 and the 2-byte
narration "hi". -/
def rcpHi : Recipient := ⟨"B1", "", 7, AT_Normal, [104, 105]⟩

/-- C2 counterexample: processing a standard recipient with narration
"hi" appends, after the payment output, a SINGLE zero-value return-data
output whose script carries both the 2-byte descriptor push and the
narration push — not the two separate return-data outputs the claim
describes (the resulting output list has length 2, not 3). -/
theorem c2_counterexample :
    processOne env0 0 rcpHi [] [] =
      .ok ([(Script.payTo (Dest.fromAddrString "B1"), 7),
        (Script.raw [ScriptElem.opReturn, ScriptElem.push narrationDescTag,
          ScriptElem.opReturn, ScriptElem.push [104, 105]], 0)], []) ∧
    (processOne env0 0 rcpHi [] []).toOption.map (fun r => r.1.length) = some 2 := by
  refine ⟨rfl, rfl⟩

/-- C2 (amended): for every non-stealth recipient with a non-empty
narration of at most 24 raw bytes, the loop body appends, immediately after
that recipient's payment output, ONE zero-value return-data output whose
script carries the fixed 2-byte descriptor tag push and a push of the raw
narration bytes (a single output with two data pushes, not two outputs). -/
theorem c2_plain_narration_output (env : Env) (i : Nat) (rcp : Recipient)
    (vec : List Output) (narr : List (Nat × List Nat))
    (hk : rcp.typeInd ≠ AT_Stealth) (h0 : 0 < rcp.narration.length)
    (h24 : rcp.narration.length ≤ 24) :
    processOne env i rcp vec narr =
      .ok (vec ++ [(Script.payTo (Dest.fromAddrString rcp.address), rcp.amount),
        (Script.raw [ScriptElem.opReturn, ScriptElem.push narrationDescTag,
          ScriptElem.opReturn, ScriptElem.push rcp.narration], 0)], narr) := by
  unfold processOne processStandard
  rw [if_neg hk]
  simp only []
  rw [if_pos h0, if_neg (by omega)]
  simp

/-- C2 witness: the amended statement evaluated on the concrete recipient
`rcpHi`. -/
theorem c2_plain_narration_output_witness :
    processOne env0 0 rcpHi [] [] =
      .ok ([] ++ [(Script.payTo (Dest.fromAddrString rcpHi.address), rcpHi.amount),
        (Script.raw [ScriptElem.opReturn, ScriptElem.push narrationDescTag,
          ScriptElem.opReturn, ScriptElem.push rcpHi.narration], 0)], []) :=
  c2_plain_narration_output env0 0 rcpHi [] [] (by decide) (by decide) (by decide)

/-! ## C3 -/

/-- A standard recipient with a valid address, amount 5 and no
narration. -/
def rcpPlain : Recipient := ⟨"A", "", 5, AT_Normal, []⟩

/-- Like `env0`, but the wallet holds only a 10-value coin and the
transaction builder succeeds while reporting a required fee of 100. -/
def env3 : Env := { env0 with availableCoins := [10], createTransaction := fun _ => (true, 100, -1) }

/-- C3 counterexample: with balance 10, amount 5, assumed fee 1 and a
builder that succeeds with actual fee 100, `sendCoins` commits the
transaction (status `OK`) although `total + actual fee` exceeds the
balance, and the only fee-sufficiency comparison in the whole run is the
optimistic pre-check with the assumed fee — no authoritative
re-verification precedes the commit. -/
theorem c3_counterexample :
    (sendCoins env3 [rcpPlain]).1.status = SendStatus.OK ∧
    (sendCoins env3 [rcpPlain]).2.filter Event.isFeeCheck = [Event.feeCheck 1] ∧
    (sendCoins env3 [rcpPlain]).2.any Event.isCommit = true ∧
    env3.availableCoins.sum <
      rcpPlain.amount +
        (env3.createTransaction [(Script.payTo (Dest.fromAddrString "A"), 5)]).2.1 := by
  refine ⟨by decide, by decide, by decide, by decide⟩

/-- C3 (amended): the optimistic fee pre-check with the assumed
`nTransactionFee` runs before the lock on every run that acquires the lock
(the trace's first three events are the coin read, that fee check, and the
lock); a run that commits performs no further fee-sufficiency comparison
(its fee checks are exactly the one pre-check); the re-verification with
the newly computed fee runs only when transaction construction fails, in
which case the run ends `AmountWithFeeExceedsBalance` carrying that fee and
its fee checks are exactly the pre-check followed by the re-check. -/
theorem c3_fee_checks (env : Env) (recipients : List Recipient) :
    (Event.lockAcquired ∈ (sendCoins env recipients).2 →
      (sendCoins env recipients).2.take 3 =
        [.availableCoins, .feeCheck env.nTransactionFee, .lockAcquired]) ∧
    ((sendCoins env recipients).2.any Event.isCommit = true →
      (sendCoins env recipients).2.filter Event.isFeeCheck =
        [.feeCheck env.nTransactionFee]) ∧
    ((sendCoins env recipients).1.status = .AmountWithFeeExceedsBalance →
      Event.createTx ∈ (sendCoins env recipients).2 →
      (sendCoins env recipients).2.filter Event.isFeeCheck =
        [.feeCheck env.nTransactionFee, .feeCheck (sendCoins env recipients).1.fee]) := by
  rcases hr : sendCoins env recipients with ⟨ret, tr⟩
  unfold sendCoins at hr
  simp only [] at hr
  repeat' split at hr
  all_goals (injection hr with h1 h2; subst h1; subst h2)
  all_goals refine ⟨fun h => ?_, fun h => ?_, fun h h' => ?_⟩
  all_goals
    first
    | rfl
    | (simp [Event.isCommit] at h; done)
    | (simp at h')
    | (simp [Event.isFeeCheck, List.filter_append, addressBookEvents_filter_feeCheck])

/-- C3 witness: a committing run in the benign environment has exactly one
fee check, the optimistic one. -/
theorem c3_fee_checks_witness :
    (sendCoins env0 [rcpPlain]).2.filter Event.isFeeCheck =
      [Event.feeCheck env0.nTransactionFee] :=
  (c3_fee_checks env0 [rcpPlain]).2.1 (by decide)

/-! ## C8 -/

/-- C8 counterexample: for a 76-character string that is not a stealth
address but passes standard parsing, `validateAddress` accepts it (the code
falls back to standard parsing), while the claim's exclusive
length-dispatch reading rejects it. -/
theorem c8_counterexample :
    validateAddress env8 addr8 = true ∧
    validateAddressSpec env8 addr8 = false ∧
    75 < addr8.length := by
  refine ⟨by decide, by decide, by decide⟩

/-- C8 (amended): `validateAddress` accepts a string iff it is longer than
75 characters and `IsStealthAddress` accepts it, or it passes standard
`CBitcoinAddress` parsing; a long string failing the stealth parse falls
back to the standard parse.  The function is pure, hence side-effect-free. -/
theorem c8_validateAddress_dispatch (env : Env) (addr : String) :
    validateAddress env addr =
      ((decide (75 < addr.length) && env.isStealthAddress addr) ||
        env.isValidBase58 addr) := by
  unfold validateAddress
  by_cases h : 75 < addr.length
  · rw [if_pos h]
    cases hs : env.isStealthAddress addr <;> simp [hs, h]
  · rw [if_neg h]
    simp [h]

/-! ## C5 -/

/-- The cumulative effect of the validation loop's `setAddress.insert`
calls: fold the addresses into the set representation, skipping those
already present. -/
def qsetInsertAll : List String → List String → List String
  | s, [] => s
  | s, a :: rest => qsetInsertAll (if a ∈ s then s else a :: s) rest

/-- Inserting a list of addresses grows the set by at most the list
length. -/
theorem qsetInsertAll_length_le (l : List String) :
    ∀ s : List String, (qsetInsertAll s l).length ≤ s.length + l.length := by
  induction l with
  | nil => intro s; simp [qsetInsertAll]
  | cons a rest ih =>
    intro s
    unfold qsetInsertAll
    by_cases ha : a ∈ s
    · rw [if_pos ha]
      have := ih s
      simp only [List.length_cons]
      omega
    · rw [if_neg ha]
      have := ih (a :: s)
      simp only [List.length_cons] at this ⊢
      omega

/-- Inserting a list one of whose members is already in the set grows the
set by strictly less than the list length. -/
theorem qsetInsertAll_length_lt_of_mem (l : List String) :
    ∀ (s : List String) (a : String), a ∈ l → a ∈ s →
    (qsetInsertAll s l).length < s.length + l.length := by
  induction l with
  | nil => intro s a ha _; simp at ha
  | cons b rest ih =>
    intro s a hal has
    unfold qsetInsertAll
    by_cases hb : b ∈ s
    · rw [if_pos hb]
      have := qsetInsertAll_length_le rest s
      simp only [List.length_cons]
      omega
    · rw [if_neg hb]
      have hab : a ≠ b := fun he => hb (he ▸ has)
      have harest : a ∈ rest := by
        rcases List.mem_cons.mp hal with h | h
        · exact absurd h hab
        · exact h
      have := ih (b :: s) a harest (List.mem_cons_of_mem _ has)
      simp only [List.length_cons] at this ⊢
      omega

/-- Inserting a list with a duplicate member grows the set by strictly
less than the list length. -/
theorem qsetInsertAll_length_lt_of_dup (l : List String) :
    ∀ s : List String, ¬ l.Nodup →
    (qsetInsertAll s l).length < s.length + l.length := by
  induction l with
  | nil => intro s h; exact absurd List.nodup_nil h
  | cons b rest ih =>
    intro s h
    unfold qsetInsertAll
    by_cases hb : b ∈ s
    · rw [if_pos hb]
      have := qsetInsertAll_length_le rest s
      simp only [List.length_cons]
      omega
    · rw [if_neg hb]
      by_cases hbr : b ∈ rest
      · have := qsetInsertAll_length_lt_of_mem rest (b :: s) b hbr (List.mem_cons_self b s)
        simp only [List.length_cons] at this ⊢
        omega
      · have hnd : ¬ rest.Nodup := fun hnodup => h (List.nodup_cons.mpr ⟨hbr, hnodup⟩)
        have := ih (b :: s) hnd
        simp only [List.length_cons] at this ⊢
        omega

/-- On a list of recipients that all pass address validation with positive
amounts, the validation loop succeeds, accumulating the amount total and
the inserted address set. -/
theorem precheck_all_valid (env : Env) (l : List Recipient) :
    ∀ (t : Int) (sa : List String),
    (∀ r ∈ l, validateAddress env r.address = true ∧ 0 < r.amount) →
    precheck env l t sa =
      .ok (t + (l.map (fun r => r.amount)).sum,
           qsetInsertAll sa (l.map (fun r => r.address))) := by
  induction l with
  | nil => intro t sa _; simp [precheck, qsetInsertAll]
  | cons rcp rest ih =>
    intro t sa hall
    obtain ⟨hv, hp⟩ := hall rcp (List.mem_cons_self rcp rest)
    unfold precheck
    rw [hv]
    simp only []
    rw [if_neg (by simp : ¬(true = false)), if_neg (by omega : ¬(rcp.amount ≤ 0))]
    rw [ih (t + rcp.amount) _ (fun r hr => hall r (List.mem_cons_of_mem _ hr))]
    simp [qsetInsertAll, add_assoc]

/-- C5: for every non-empty recipient list whose addresses all validate and
whose amounts are all positive, a duplicated destination address makes
`sendCoins` return `DuplicateAddress` with an empty interaction trace —
no coin is read, locked, spent or otherwise touched. -/
theorem c5_duplicate_address (env : Env) (recipients : List Recipient)
    (hne : recipients ≠ [])
    (hvalid : ∀ r ∈ recipients, validateAddress env r.address = true ∧ 0 < r.amount)
    (hdup : ¬ (recipients.map (fun r => r.address)).Nodup) :
    sendCoins env recipients = (⟨.DuplicateAddress, 0, ""⟩, []) := by
  have hne' : recipients.isEmpty = false := by
    cases recipients with
    | nil => exact absurd rfl hne
    | cons a l => rfl
  unfold sendCoins
  rw [hne', if_neg (by simp : ¬(false = true))]
  rw [precheck_all_valid env recipients 0 [] hvalid]
  simp only []
  have hlt : (qsetInsertAll [] (recipients.map (fun r => r.address))).length <
      recipients.length := by
    have := qsetInsertAll_length_lt_of_dup (recipients.map (fun r => r.address)) [] hdup
    simpa using this
  rw [if_pos hlt]

/-- C5 witness: two recipients with the same address yield
`DuplicateAddress` and the empty trace. -/
theorem c5_duplicate_address_witness :
    sendCoins env0 [rcpPlain, rcpPlain] = (⟨.DuplicateAddress, 0, ""⟩, []) :=
  c5_duplicate_address env0 [rcpPlain, rcpPlain] (by decide) (by decide) (by decide)

/-! ## C6 -/

/-- Modelled from the spec: `CWallet::CreateTransaction` is not under
`src/`.  The builder inserts the change output at position `nChangePos`,
shifting every pre-existing output at position ≥ `nChangePos` up by one —
plain positional list insertion, exactly the semantics the
narration-position reconciliation in `sendCoins` (walletmodel.cpp lines
405-419) compensates for. -/
def insertChangeAt : Nat → Output → List Output → List Output
  | 0, chg, outs => chg :: outs
  | _ + 1, chg, [] => [chg]
  | pos + 1, chg, o :: outs => o :: insertChangeAt pos chg outs

/-- Insertion at a position inside the left part of an append happens
inside the left part. -/
theorem insertChangeAt_append_left (chg : Output) (l2 : List Output) :
    ∀ (l1 : List Output) (pos : Nat), pos ≤ l1.length →
    insertChangeAt pos chg (l1 ++ l2) = insertChangeAt pos chg l1 ++ l2 := by
  intro l1
  induction l1 with
  | nil =>
    intro pos h
    have hz : pos = 0 := Nat.le_zero.mp h
    subst hz
    rfl
  | cons a l1 ih =>
    intro pos h
    cases pos with
    | zero => rfl
    | succ p =>
      simp only [List.cons_append, insertChangeAt, List.append_eq]
      rw [ih p (by simpa using h)]

/-- Insertion at a position past the left part of an append happens inside
the right part. -/
theorem insertChangeAt_append_right (chg : Output) (l2 : List Output) :
    ∀ (l1 : List Output) (pos : Nat), l1.length ≤ pos →
    insertChangeAt pos chg (l1 ++ l2) =
      l1 ++ insertChangeAt (pos - l1.length) chg l2 := by
  intro l1
  induction l1 with
  | nil => intro pos _; simp
  | cons a l1 ih =>
    intro pos h
    cases pos with
    | zero => simp at h
    | succ p =>
      simp only [List.cons_append, insertChangeAt, List.length_cons, Nat.succ_sub_succ,
        List.append_eq]
      rw [ih p (by simpa using h)]

/-- A stealth recipient with empty narration, for the C6 counterexample. -/
def rcpStealth : Recipient := ⟨"S1", "", 9, AT_Stealth, []⟩

/-- The payment output `rcpStealth` produces in `env0`. -/
def pay6 : Output := (Script.payTo (Dest.fromKeyId [5]), 9)

/-- The data-carrier output `rcpStealth` produces in `env0`. -/
def data6 : Output := (Script.raw [ScriptElem.opReturn, ScriptElem.push [6]], 0)

/-- A change output. -/
def chg6 : Output := (Script.payTo (Dest.fromAddrString "CHG"), 91)

/-- C6 counterexample: a successfully processed stealth recipient yields
the adjacent pair `[pay6, data6]`, but change insertion at position 1 —
strictly between the pair — produces `[pay6, chg6, data6]`: the output
immediately following the payment output is the change output, not the
data carrier.  Adjacency is NOT preserved at every change position. -/
theorem c6_counterexample :
    processRecipients env0 [rcpStealth] 0 [] [] = .ok ([pay6, data6], []) ∧
    insertChangeAt 1 chg6 [pay6, data6] = [pay6, chg6, data6] ∧
    (insertChangeAt 1 chg6 [pay6, data6]).get? 1 ≠ some data6 := by
  refine ⟨rfl, by decide, by decide⟩

/-- C6 (amended): every successfully processed stealth recipient appends
exactly one payment output carrying its value, immediately followed by
exactly one zero-value data-carrier output whose script starts with the
ephemeral-pubkey push; and change insertion preserves the pair's adjacency
for every change position that is not strictly inside the pair (at the
position between the two outputs, insertion splits them — see the
counterexample — so the external builder must not place change there). -/
theorem c6_stealth_pair (env : Env) (i : Nat) (rcp : Recipient)
    (vec : List Output) (narr : List (Nat × List Nat))
    (sx : StealthDecoded) (es ss pk ep : List Nat)
    (hk : rcp.typeInd = AT_Stealth) (hdec : env.setEncoded rcp.address = some sx)
    (hgen : env.genSecret i = some es) (hss : env.stealthSecret es sx = some (ss, pk))
    (hpk : env.pubkeyValid pk = true) (hep : env.secretToPublic es = some ep) :
    ((rcp.narration.length = 0 →
        processOne env i rcp vec narr =
          .ok (vec ++ [(Script.payTo (Dest.fromKeyId pk), rcp.amount),
            (Script.raw [ScriptElem.opReturn, ScriptElem.push ep], 0)], narr)) ∧
     (∀ ct : List Nat, 0 < rcp.narration.length → rcp.narration.length ≤ 24 →
        env.encryptNarr ss ep rcp.narration = some ct → ct.length ≤ 48 →
        ∃ tail : List ScriptElem,
          processOne env i rcp vec narr =
            .ok (vec ++ [(Script.payTo (Dest.fromKeyId pk), rcp.amount),
              (Script.raw ([ScriptElem.opReturn, ScriptElem.push ep] ++ tail), 0)],
              narr ++ [(vec.length, rcp.narration)]))) ∧
    (∀ (l1 l2 : List Output) (P D chg : Output) (pos : Nat),
      pos ≤ l1.length ∨ l1.length + 2 ≤ pos →
      ∃ m1 m2, insertChangeAt pos chg (l1 ++ P :: D :: l2) = m1 ++ P :: D :: m2) := by
  refine ⟨⟨fun h0 => ?_, fun ct hpos hle henc hct => ?_⟩,
    fun l1 l2 P D chg pos hpos => ?_⟩
  · simp [processOne, hk, hdec, hgen, hss, hpk, hep, h0]
  · refine ⟨if 0 < ct.length then [ScriptElem.opReturn, ScriptElem.push ct] else [], ?_⟩
    have h24 : ¬(24 < rcp.narration.length) := by omega
    have h48 : ¬(48 < ct.length) := by omega
    by_cases hc0 : 0 < ct.length
    · simp [processOne, hk, hdec, hgen, hss, hpk, hep, hpos, h24, henc, h48, hc0,
        Nat.add_sub_cancel]
    · simp [processOne, hk, hdec, hgen, hss, hpk, hep, hpos, h24, henc, h48, hc0,
        Nat.add_sub_cancel]
  · rcases hpos with hle | hge
    · exact ⟨insertChangeAt pos chg l1, l2,
        insertChangeAt_append_left chg (P :: D :: l2) l1 pos hle⟩
    · refine ⟨l1, insertChangeAt (pos - l1.length - 2) chg l2, ?_⟩
      have h2 : (l1 ++ [P, D]).length ≤ pos := by
        simp only [List.length_append, List.length_cons, List.length_nil]
        omega
      have hins := insertChangeAt_append_right chg l2 (l1 ++ [P, D]) pos h2
      simp only [List.append_assoc, List.cons_append, List.nil_append,
        List.length_append, List.length_cons, List.length_nil] at hins
      rw [hins]
      have harith : pos - l1.length - 2 = pos - (l1.length + (0 + 1 + 1)) := by omega
      rw [harith]

/-- C6 witness: the empty-narration stealth pair evaluated concretely. -/
theorem c6_stealth_pair_witness :
    processOne env0 0 rcpStealth [] [] =
      .ok ([] ++ [(Script.payTo (Dest.fromKeyId [5]), rcpStealth.amount),
        (Script.raw [ScriptElem.opReturn, ScriptElem.push [6]], 0)], []) :=
  (c6_stealth_pair env0 0 rcpStealth [] [] ⟨[1], [2]⟩ [3] [4] [5] [6]
    rfl rfl rfl rfl rfl rfl).1.1 rfl

/-! ## C9 -/

/-- C9: for the empty recipient list, `sendCoins` returns `OK` with zero fee
and an empty transaction id, and the interaction trace is empty: no coin
access, no lock, no wallet mutation. -/
theorem c9_empty_recipients (env : Env) :
    sendCoins env [] = (⟨.OK, 0, ""⟩, []) := rfl

/-! ## C7 -/

/-- C7: a narration longer than 24 raw bytes makes the loop body return
`NarrationTooLong` regardless of recipient kind — for a non-stealth
recipient, for a stealth-tagged recipient whose address fails stealth
decoding, and (with no assumption on the recipient's kind at all) whenever
the stealth key-agreement oracles would succeed — and the raw-length check
runs before encryption, so no hypothesis on the encryption oracle is
needed; a stealth narration of valid raw length whose encryption fails, or
whose ciphertext exceeds 48 bytes, yields `Aborted`; and a
single-recipient `sendCoins` call that passes the pre-checks surfaces the
`NarrationTooLong` as its result. -/
theorem c7_narration_limits (env : Env) (i : Nat) (rcp : Recipient)
    (vec : List Output) (narr : List (Nat × List Nat))
    (sx : StealthDecoded) (es ss pk ep : List Nat) :
    ((24 < rcp.narration.length → rcp.typeInd ≠ AT_Stealth →
        processOne env i rcp vec narr = .error .NarrationTooLong) ∧
     (24 < rcp.narration.length → env.setEncoded rcp.address = none →
        processOne env i rcp vec narr = .error .NarrationTooLong) ∧
     (24 < rcp.narration.length →
        env.setEncoded rcp.address = some sx → env.genSecret i = some es →
        env.stealthSecret es sx = some (ss, pk) → env.pubkeyValid pk = true →
        env.secretToPublic es = some ep →
        processOne env i rcp vec narr = .error .NarrationTooLong) ∧
     (0 < rcp.narration.length → rcp.narration.length ≤ 24 →
        rcp.typeInd = AT_Stealth →
        env.setEncoded rcp.address = some sx → env.genSecret i = some es →
        env.stealthSecret es sx = some (ss, pk) → env.pubkeyValid pk = true →
        env.secretToPublic es = some ep →
        env.encryptNarr ss ep rcp.narration = none →
        processOne env i rcp vec narr = .error .Aborted) ∧
     (∀ ct : List Nat, 0 < rcp.narration.length → rcp.narration.length ≤ 24 →
        rcp.typeInd = AT_Stealth →
        env.setEncoded rcp.address = some sx → env.genSecret i = some es →
        env.stealthSecret es sx = some (ss, pk) → env.pubkeyValid pk = true →
        env.secretToPublic es = some ep →
        env.encryptNarr ss ep rcp.narration = some ct → 48 < ct.length →
        processOne env i rcp vec narr = .error .Aborted) ∧
     (24 < rcp.narration.length → rcp.typeInd ≠ AT_Stealth →
        validateAddress env rcp.address = true → 0 < rcp.amount →
        rcp.amount ≤ env.availableCoins.sum →
        rcp.amount + env.nTransactionFee ≤ env.availableCoins.sum →
        (sendCoins env [rcp]).1.status = .NarrationTooLong)) := by
  refine ⟨fun h24 hk => ?_, fun h24 hdec => ?_, fun h24 hdec hgen hss hpk hep => ?_,
    fun h0 h24 hk hdec hgen hss hpk hep henc => ?_,
    fun ct h0 h24 hk hdec hgen hss hpk hep henc h48 => ?_,
    fun h24 hk hv hpos hb1 hb2 => ?_⟩
  · have h0 : 0 < rcp.narration.length := by omega
    simp [processOne, processStandard, hk, h0, h24]
  · have h0 : 0 < rcp.narration.length := by omega
    by_cases hk : rcp.typeInd = AT_Stealth
    · simp [processOne, processStandard, hk, hdec, h0, h24]
    · simp [processOne, processStandard, hk, h0, h24]
  · have h0 : 0 < rcp.narration.length := by omega
    by_cases hk : rcp.typeInd = AT_Stealth
    · simp [processOne, hk, hdec, hgen, hss, hpk, hep, h0, h24]
    · simp [processOne, processStandard, hk, h0, h24]
  · have h24' : ¬(24 < rcp.narration.length) := by omega
    simp [processOne, hk, hdec, hgen, hss, hpk, hep, h0, h24', henc]
  · have h24' : ¬(24 < rcp.narration.length) := by omega
    simp [processOne, hk, hdec, hgen, hss, hpk, hep, h0, h24', henc, h48]
  · have h0 : 0 < rcp.narration.length := by omega
    have hbody : processOne env 0 rcp [] [] = .error .NarrationTooLong := by
      simp [processOne, processStandard, hk, h0, h24]
    have hne0 : ¬(rcp.amount ≤ 0) := by omega
    have hbal1 : ¬(env.availableCoins.sum < rcp.amount) := by omega
    have hbal2 : ¬(env.availableCoins.sum < rcp.amount + env.nTransactionFee) := by
      omega
    simp [sendCoins, precheck, processRecipients, hv, hne0, hbal1, hbal2, hbody]

/-- C7 witness: the 25-byte narration of `rcpLongNarr` is rejected as
`NarrationTooLong` by the loop body. -/
theorem c7_narration_limits_witness :
    processOne env0 0 rcpLongNarr [] [] = Except.error SendStatus.NarrationTooLong :=
  (c7_narration_limits env0 0 rcpLongNarr [] [] ⟨[], []⟩ [] [] [] []).1
    (by decide) (by decide)

/-! ## C10 -/

/-- Like `env0`, but stealth-address decoding always fails. -/
def envNoStealth : Env := { env0 with setEncoded := fun _ => none }

/-- C10: a recipient tagged stealth whose address string fails stealth
decoding does not make `sendCoins` fail: the loop body behaves exactly as
the standard (non-stealth) arm — and, for an empty narration, appends
exactly one standard payment output built from the address string. -/
theorem c10_stealth_decode_fallback (env : Env) (i : Nat) (rcp : Recipient)
    (vec : List Output) (narr : List (Nat × List Nat))
    (hk : rcp.typeInd = AT_Stealth) (hdec : env.setEncoded rcp.address = none) :
    processOne env i rcp vec narr = processStandard rcp vec narr ∧
    (rcp.narration = [] →
      processOne env i rcp vec narr =
        .ok (vec ++ [(Script.payTo (Dest.fromAddrString rcp.address), rcp.amount)],
          narr)) := by
  have h1 : processOne env i rcp vec narr = processStandard rcp vec narr := by
    unfold processOne
    rw [if_pos hk, hdec]
  refine ⟨h1, fun hn => ?_⟩
  rw [h1]
  simp [processStandard, hn]

/-- C10 witness: the stealth-tagged recipient `rcpStealth` falls back to a
standard payment output when decoding fails. -/
theorem c10_stealth_decode_fallback_witness :
    processOne envNoStealth 0 rcpStealth [] [] =
      .ok ([] ++ [(Script.payTo (Dest.fromAddrString rcpStealth.address),
        rcpStealth.amount)], []) :=
  (c10_stealth_decode_fallback envNoStealth 0 rcpStealth [] [] rfl rfl).2 rfl

/-! ## C4 -/

/-- C4: the narration reconciliation attaches each metadata record collected
at pre-change-insertion position `p` under final position `p + 1` exactly
when a change output exists (`nChangePos > -1`) and `p` is at least the
change position, and under `p` otherwise. -/
theorem c4_narration_shift (nChangePos : Int) (m : List (Nat × List Nat)) :
    attachNarrations nChangePos m =
      m.map (fun e =>
        (if nChangePos > -1 ∧ nChangePos ≤ (e.1 : Int) then e.1 + 1 else e.1, e.2)) := by
  induction m with
  | nil => rfl
  | cons e rest ih => simp only [attachNarrations, ih, List.map_cons]

end AveroPay
